import Mathlib

/-!
Shallow embedding of the compliance-document evaluator (`analysis.js`).

Document text is modelled as `Str := List Char`; the JavaScript
case-insensitive regex tests are embedded as executable scanners over the
lowercased character list.  Record fields that JavaScript leaves optional
(`undefined`) are modelled with `Option`.  The random finding ids produced by
`mk` (`"R-" + Math.random()...`) are opaque and never inspected by any
property; they are modelled by a fixed placeholder string.
-/

/-- Document text: a JavaScript string as a list of characters. -/
abbrev Str := List Char

/-- Turn a Lean string literal into `Str`. -/
def cs (s : String) : Str := s.toList

/-- Lowercasing, modelling `String.prototype.toLowerCase` / the regex `i` flag
(ASCII-faithful). -/
def lowerS (s : Str) : Str := s.map Char.toLower

/-- Lowercase a Lean `String` (used for severity normalisation). -/
def lowerStr (s : String) : String := String.mk (lowerS s.toList)

/-- `isPrefL pat s` holds when `pat` is a prefix of `s` (boolean). -/
def isPrefL : Str → Str → Bool
  | [], _ => true
  | _ :: _, [] => false
  | a :: as, b :: bs => a == b && isPrefL as bs

/-- Generic left-to-right scanner: does predicate `p` hold on some suffix? -/
def scanP (p : Str → Bool) : Str → Bool
  | [] => p []
  | s@(_ :: rest) => p s || scanP p rest

/-- Substring containment: some suffix of `s` starts with `pat`. -/
def containsSub (pat : Str) (s : Str) : Bool := scanP (isPrefL pat) s

/-- Case-insensitive test of a literal pattern against the document,
modelling `new RegExp(lit, "i").test(text)` for a literal `lit`. -/
def tci (pat : String) (text : Str) : Bool := containsSub (cs pat) (lowerS text)

/-- JavaScript word character (`\w` = `[A-Za-z0-9_]`). -/
def isWordChar (c : Char) : Bool := c.isAlpha || c.isDigit || c == '_'

/-- Word-boundary-aware pattern occurrence at the head of `s`: the pattern
matches and the following character (if any) is not a word character. -/
def wbAt (pat : Str) (s : Str) : Bool :=
  isPrefL pat s &&
    (match s.drop pat.length with
     | [] => true
     | c :: _ => !isWordChar c)

/-- Scanner for `\bpat\b`, tracking whether the previous character was a word
character. -/
def wbGo (pat : Str) (prevW : Bool) : Str → Bool
  | [] => !prevW && wbAt pat []
  | s@(c :: rest) => (!prevW && wbAt pat s) || wbGo pat (isWordChar c) rest

/-- Case-insensitive `\blit\b` test over the document. -/
def wbci (pat : String) (text : Str) : Bool := wbGo (cs pat) false (lowerS text)

/-- After a `.*` gap (JavaScript `.` does not match newline), does `b` occur? -/
def dotStarThen (b : Str) : Str → Bool
  | [] => isPrefL b []
  | s@(c :: rest) => isPrefL b s || (c != '\n' && dotStarThen b rest)

/-- Existence of a match of the regex `a.*b` (case handled by the caller):
an occurrence of `a`, a newline-free gap, then an occurrence of `b`. -/
def seqDotStar (a b : Str) (s : Str) : Bool :=
  scanP (fun t => isPrefL a t && dotStarThen b (t.drop a.length)) s

/-- Case-insensitive `a.*b` test over the document. -/
def sdci (a b : String) (text : Str) : Bool := seqDotStar (cs a) (cs b) (lowerS text)

/-- JavaScript `\s` (the whitespace characters relevant here). -/
def isJsWs (c : Char) : Bool :=
  c == ' ' || c == '\t' || c == '\n' || c == '\r' ||
  c == '\x0b' || c == '\x0c' || c == ' ' || c == '﻿'

/-- Skip `\s*` then require `pat` (maximal munch is exact: `pat` never starts
with whitespace at any use site). -/
def wsStarThen (pat : Str) : Str → Bool
  | [] => isPrefL pat []
  | s@(c :: rest) => if isJsWs c then wsStarThen pat rest else isPrefL pat s

/-- Require `\s+` then `pat`. -/
def wsPlusThen (pat : Str) : Str → Bool
  | [] => false
  | c :: rest => isJsWs c && wsStarThen pat rest

/-- Skip `\s*` then require a digit (`\s*\d+`, existence only). -/
def wsStarThenDigit : Str → Bool
  | [] => false
  | c :: rest => if isJsWs c then wsStarThenDigit rest else c.isDigit

/-- The regex `app\s*\d+` (case-insensitive) matches somewhere. -/
def appDigit (text : Str) : Bool :=
  scanP (fun t => isPrefL (cs "app") t && wsStarThenDigit (t.drop 3)) (lowerS text)

/-- The regex `admin(istrative)?\s+privilege|least privilege|rbac`
(case-insensitive) matches somewhere. -/
def adminPriv (text : Str) : Bool :=
  scanP
    (fun t =>
      isPrefL (cs "admin") t &&
        (let r := t.drop 5
         let r2 := if isPrefL (cs "istrative") r then r.drop 9 else r
         wsPlusThen (cs "privilege") r2))
    (lowerS text) ||
  tci "least privilege" text || tci "rbac" text

/- ---------------- Data model ---------------- -/

/-- A finding record.  JavaScript object fields that may be absent
(`undefined`) on model-derived findings are `Option`-typed. -/
structure Finding where
  id : Option String
  theme : Option String
  title : Option String
  status : Option String
  severity : Option String
  evidence : Option String
  impact : Option String
  recommendation : Option String
  references : List String
  confidence : ℚ
deriving DecidableEq, Repr

/-- JavaScript `o || d` on an optional string (`undefined` and `""` are falsy). -/
def strOr (o : Option String) (d : String) : String :=
  match o with
  | none => d
  | some s => if s = "" then d else s

/-- The source's `mk` helper: builds a finding with every field present.  The
random `id` (`"R-" + Math.random().toString(36).slice(2, 8)`) is opaque and
modelled by a fixed placeholder. -/
def mk (theme title status severity evidence impact recommendation : String)
    (references : List String) (confidence : ℚ) : Finding :=
  ⟨some "R-xxxxxx", some theme, some title, some status, some severity,
   some evidence, some impact, some recommendation, references, confidence⟩

/- ---------------- AU heuristics (fallback & gap-filler) ---------------- -/

/-- The Essential Eight signal table: control-family name and its regex test
(from `e8Signals`). -/
def e8Signals (text : Str) : List (String × Bool) :=
  [("Patch applications", sdci "patch" "application" text || sdci "patch" "app" text ||
      sdci "update" "application" text || sdci "update" "app" text),
   ("Patch operating systems", sdci "patch" "operating system" text || sdci "patch" "os" text ||
      sdci "update" "operating system" text || sdci "update" "os" text),
   ("Configure Microsoft Office macro settings", tci "macro" text),
   ("User application hardening", tci "hardening" text || tci "blocklist" text || tci "disable" text),
   ("Restrict administrative privileges", adminPriv text),
   ("Multi-factor authentication", tci "multi-factor" text || tci "multifactor" text ||
      tci "mfa" text || tci "2fa" text),
   ("Regular backups", tci "backup" text),
   ("Incident response", tci "incident" text || tci "breach notification" text || tci "respond" text)]

/-- The heuristic rule engine `heuristicsAU`: a deterministic pure function of
the document text emitting one `undisclosed` finding per failing rule. -/
def heuristicsAU (text : Str) : List Finding :=
  -- Privacy APPs
  (if !(wbci "privacy policy" text) && !(sdci "how we manage" "personal information" text) then
    [mk "privacy_app" "APP 1 transparency" "undisclosed" "medium"
      "Not found"
      "Lack of clear statement on how personal information is managed (APP 1)."
      "Publish an APP 1-compliant privacy policy covering purpose, types collected, use/disclosure, access/correction, complaints and contact."
      ["APP 1"] (6/10)]
   else []) ++
  (if !(tci "we collect" text) || !(tci "why we collect" text) || !(tci "how to contact" text) then
    [mk "privacy_app" "APP 5 collection notice" "undisclosed" "high"
      "Details of collection notice not clearly present."
      "APP 5 notice may be incomplete or absent."
      "Add an APP 5 notice with purposes, fields, disclosures, cross-border, contact."
      ["APP 5"] (7/10)]
   else []) ++
  (if !(tci "overseas" text) && !(tci "outside australia" text) && !(tci "cross-border" text) then
    [mk "privacy_app" "APP 8 cross-border disclosures" "undisclosed" "medium"
      "No explicit mention of disclosures overseas."
      "If using offshore vendors/cloud, APP 8 accountability may apply."
      "Disclose countries/types of overseas recipients or state none occur."
      ["APP 8"] (6/10)]
   else []) ++
  (if !(tci "security" text) ||
      !(tci "encryption" text || tci "mfa" text || tci "access control" text ||
        tci "backup" text || tci "patch" text) then
    [mk "privacy_app" "APP 11 security of personal information" "undisclosed" "high"
      "Security controls not described."
      "Absence of described measures increases risk."
      "Document encryption/MFA/least privilege/backups/patch SLAs."
      ["APP 11", "ACSC Essential Eight"] (7/10)]
   else []) ++
  (if !(tci "access your information" text || tci "request access" text) then
    [mk "privacy_app" "APP 12 access to personal information" "undisclosed" "medium"
      "Access process not described."
      "Individuals may not know how to obtain info."
      "Add a process for access requests, ID, timeframes, charges."
      ["APP 12"] (6/10)]
   else []) ++
  (if !(tci "correction" text || tci "correct your information" text) then
    [mk "privacy_app" "APP 13 correction of personal information" "undisclosed" "medium"
      "Correction process not described."
      "Individuals may not know how to correct inaccuracies."
      "Describe correction process, acknowledgement, timeframes."
      ["APP 13"] (6/10)]
   else []) ++
  (if !(tci "retention" text || tci "retain" text || tci "delete" text ||
        tci "deletion" text || tci "destroy" text) then
    [mk "privacy_app" "Retention & deletion" "undisclosed" "medium"
      "No retention/deletion commitments detected."
      "Data kept without defined periods increases exposure."
      "State retention periods, secure destruction, triggers."
      ["APP 11"] (6/10)]
   else []) ++
  -- Essential Eight
  ((e8Signals text).filterMap (fun nb =>
    if nb.2 then none
    else some (mk "security_e8" ("Essential Eight: " ++ nb.1) "undisclosed" "low"
      "Signal not detected in document."
      ("No mention of \"" ++ nb.1 ++ "\" which is recommended ACSC control.")
      ("Publish statement of posture for \"" ++ nb.1 ++ "\".")
      ["ACSC Essential Eight"] (55/100)))) ++
  (if !((e8Signals text).any (fun nb => nb.2)) then
    [mk "security_e8" "Essential Eight posture" "undisclosed" "medium"
      "No ACSC Essential Eight signals detected."
      "Security posture unclear."
      "Publish high-level summary mapping to Essential Eight maturity."
      ["ACSC Essential Eight"] (55/100)]
   else []) ++
  -- CDSS exemption heuristics
  (if !(sdci "not" "diagnos" text) && !(tci "does not diagnos" text) &&
      !(tci "not intended to diagnose" text) then
    [mk "cdss_exemption" "Non-diagnostic disclaimer" "undisclosed" "high"
      "No explicit disclaimer found that outputs are not diagnostic."
      "Without this, TGA may view as regulated medical device."
      "Add disclaimer: 'This software does not provide a medical diagnosis and must not replace professional judgement.'"
      ["TGA CDSS Exemption Guidance"] (75/100)]
   else []) ++
  (if !(tci "clinician" text) && !(tci "health professional" text) && !(tci "doctor review" text) then
    [mk "cdss_exemption" "Clinician oversight" "undisclosed" "high"
      "No mention that outputs require clinician review/approval."
      "CDSS exemption requires clinician retains decision-making."
      "State: 'Outputs are intended for use by qualified healthcare professionals, who retain responsibility for all decisions.'"
      ["TGA CDSS Exemption"] (75/100)]
   else []) ++
  (if !(tci "transparent" text) && !(tci "rules" text) && !(tci "guideline" text) &&
      !(tci "threshold" text) then
    [mk "cdss_exemption" "Transparency of logic" "undisclosed" "medium"
      "No mention that rules/thresholds are visible."
      "Opaque logic risks classification as regulated device."
      "Add language that clinicians can see rules, thresholds, references."
      ["TGA CDSS Exemption"] (65/100)]
   else []) ++
  (if tci "patient" text && !(tci "educational" text) && !(tci "read-only" text) &&
      !(tci "non-directive" text) then
    [mk "cdss_exemption" "Patient-facing mode disclaimer" "undisclosed" "medium"
      "Mentions patient access without clarifying outputs are educational/read-only."
      "Patient features may trigger regulation unless limited."
      "Clarify patient mode only shows clinician-approved educational summaries."
      ["TGA CDSS Exemption"] (6/10)]
   else []) ++
  (if !(tci "not intended" text) && !(tci "not for triage" text) && !(tci "not for emergency" text) then
    [mk "cdss_exemption" "Scope limitations" "undisclosed" "medium"
      "No explicit limitation against triage/prediction/therapeutic claims."
      "Absence of scope limitation could classify as device."
      "Add: 'Not intended for triage, emergency use, disease prediction, or therapeutic purposes.'"
      ["TGA CDSS Exemption"] (6/10)]
   else [])

/- ---------------- JSON repair (`parseGeminiJson`) ---------------- -/

/-- JSON values.  `JSON.parse` is a platform built-in, not repository code; it
is abstracted as a parameter `jp : Str → Option JVal` (`none` models a thrown
`SyntaxError`). -/
inductive JVal where
  | jnull
  | jbool (b : Bool)
  | jnum (q : ℚ)
  | jstr (s : String)
  | jarr (xs : List JVal)
  | jobj (fields : List (String × JVal))

/-- The `Array.isArray(j) ? j : []` step applied to a parse success. -/
def arrOrEmpty : JVal → List JVal
  | .jarr xs => xs
  | _ => []

/-- Optionally strip a case-insensitive `json` tag (the `(?:json)?` part of the
fence regex). -/
def skipJsonTag (s : Str) : Str :=
  if isPrefL (cs "json") (lowerS (s.take 4)) then s.drop 4 else s

/-- Content up to the first closing triple-backtick fence, if one exists. -/
def findClose : Str → Option Str
  | [] => none
  | s@(c :: rest) =>
    if isPrefL (cs "```") s then some []
    else (findClose rest).map (fun t => c :: t)

/-- The regex `/(?:```)(?:json)?\s*([\s\S]*?)```/i` (written here without the
literal backticks): first opening fence whose tag/whitespace skip is followed
by a closing fence; returns the captured content. -/
def findFence : Str → Option Str
  | [] => none
  | s@(_ :: rest) =>
    if isPrefL (cs "```") s then
      match findClose ((skipJsonTag (s.drop 3)).dropWhile isJsWs) with
      | some content => some content
      | none => findFence rest
    else findFence rest

/-- Index of the first occurrence of a character. -/
def firstIdx (c : Char) : Str → Option ℕ
  | [] => none
  | a :: rest => if a == c then some 0 else (firstIdx c rest).map (· + 1)

/-- Index of the last occurrence of a character. -/
def lastIdx (c : Char) (s : Str) : Option ℕ :=
  (firstIdx c s.reverse).map (fun i => s.length - 1 - i)

/-- The greedy regex `\[[\s\S]*\]`: from the first `[` to the last `]`. -/
def bracketSub (s : Str) : Option Str :=
  match firstIdx '[' s, lastIdx ']' s with
  | some p, some q => if p < q then some ((s.drop p).take (q + 1 - p)) else none
  | _, _ => none

/-- Third recovery tier: parse the bracketed substring. -/
def bracketTier (jp : Str → Option JVal) (t : Str) : List JVal :=
  match bracketSub t with
  | some b =>
    match jp b with
    | some j => arrOrEmpty j
    | none => []
  | none => []

/-- The response recoverer `parseGeminiJson`.  `none` input models a non-string
argument; the empty string is falsy in the `!text` guard. -/
def parseGeminiJson (jp : Str → Option JVal) (text : Option Str) : List JVal :=
  match text with
  | none => []
  | some t =>
    if t = [] then []
    else
      match jp t with
      | some j => arrOrEmpty j
      | none =>
        match findFence t with
        | some content =>
          match jp content with
          | some j => arrOrEmpty j
          | none => bracketTier jp t
        | none => bracketTier jp t

/-- Does an optional parse result hold a JSON array? -/
def isArrB : Option JVal → Bool
  | some (.jarr _) => true
  | _ => false

/-- No recovery tier of `parseGeminiJson` yields a JSON array on this input. -/
def tiersNoArray (jp : Str → Option JVal) (text : Option Str) : Bool :=
  match text with
  | none => true
  | some t =>
    !isArrB (jp t) &&
    (match findFence t with
     | some c => !isArrB (jp c)
     | none => true) &&
    (match bracketSub t with
     | some b => !isArrB (jp b)
     | none => true)

/- ---------------- Gap-filler (`ensureMinimumAU`) ---------------- -/

/-- The template-literal key used by the gap-filler's `have` test:
the source builds the backtick template of theme and title, where an absent
field renders as the string `undefined`. -/
def interpTT (f : Finding) : String :=
  (f.theme.getD "undefined") ++ ":" ++ (f.title.getD "undefined")

/-- The gap-filler's `have(needle)` test. -/
def haveNeedle (findings : List Finding) (needle : String) : Bool :=
  findings.any (fun f => containsSub (cs needle) (lowerS (cs (interpTT f))))

/-- The gap-filler's `add(f)`: append unless an exact title duplicate exists. -/
def addF (findings : List Finding) (f : Finding) : List Finding :=
  if findings.any (fun x => strOr x.title "" == strOr f.title "") then findings
  else findings ++ [f]

/-- The regex `/retention|retain|delete|destroy|de-?identify/i`. -/
def retentionRegexAU (text : Str) : Bool :=
  tci "retention" text || tci "retain" text || tci "delete" text || tci "destroy" text ||
  tci "de-identify" text || tci "deidentify" text

/-- Gap-fill finding for the APP 5 collection notice. -/
def gapApp5 : Finding :=
  mk "privacy_app" "APP 5 collection notice" "undisclosed" "high" "Not found"
    "APP 5 notice may be incomplete or absent." "Add an APP 5 notice at collection."
    ["APP 5"] (6/10)

/-- Gap-fill finding for APP 11 security. -/
def gapApp11 : Finding :=
  mk "privacy_app" "APP 11 security of personal information" "undisclosed" "high" "Not found"
    "Security controls not described." "Document encryption/MFA/least-privilege/backups/patch SLAs."
    ["APP 11"] (65/100)

/-- Gap-fill finding for APP 12 access. -/
def gapApp12 : Finding :=
  mk "privacy_app" "APP 12 access to personal information" "undisclosed" "medium" "Not found"
    "Access process not described." "Describe how individuals can request access and expected timeframes."
    ["APP 12"] (55/100)

/-- Gap-fill finding for APP 13 correction. -/
def gapApp13 : Finding :=
  mk "privacy_app" "APP 13 correction of personal information" "undisclosed" "medium" "Not found"
    "Correction process not described." "Explain how corrections are handled and acknowledged."
    ["APP 13"] (55/100)

/-- Gap-fill finding for retention & deletion. -/
def gapRetention : Finding :=
  mk "privacy_app" "Retention & deletion" "undisclosed" "medium" "Not found"
    "No retention/deletion commitments detected."
    "State retention periods and secure deletion/de-identification triggers."
    ["APP 11"] (55/100)

/-- The gap-filler `ensureMinimumAU`, with the source's sequential mutation
modelled by threading the findings list through each conditional `add`. -/
def ensureMinimumAU (findings : List Finding) (text : Str) : List Finding :=
  let fs1 := if !(haveNeedle findings "app 5") then addF findings gapApp5 else findings
  let fs2 := if !(haveNeedle fs1 "app 11") then addF fs1 gapApp11 else fs1
  let fs3 := if !(haveNeedle fs2 "access to personal") then addF fs2 gapApp12 else fs2
  let fs4 := if !(haveNeedle fs3 "correction") then addF fs3 gapApp13 else fs3
  if !(retentionRegexAU text) then addF fs4 gapRetention else fs4

/- ---------------- Remediation dedup & ranking ---------------- -/

/-- A remediation plan item. -/
structure RemItem where
  id : String
  title : String
  severity : String
  recommendation : String
deriving DecidableEq, Repr

/-- First 200 characters of a string (JavaScript `slice(0, 200)`). -/
def take200 (s : String) : String := String.mk (s.toList.take 200)

/-- The dedup key of a finding: first 200 characters of its recommendation. -/
def recKey (f : Finding) : String := take200 (strOr f.recommendation "")

/-- Worker for `dedupeRecommendations`: walk findings in order, keeping the
first item per non-empty key (the insertion-ordered `Map` of the source). -/
def dedupeGo : List Finding → List String → List RemItem
  | [], _ => []
  | f :: fs, seen =>
    let key := recKey f
    if key != "" && !(seen.contains key) then
      ⟨strOr f.id "R-xxxxxx", strOr f.title key, strOr f.severity "medium",
        strOr f.recommendation ""⟩ :: dedupeGo fs (key :: seen)
    else dedupeGo fs seen

/-- The source's `dedupeRecommendations`. -/
def dedupeRecommendations (findings : List Finding) : List RemItem :=
  dedupeGo findings []

/-- The source's `severityRank` (`{high:0, medium:1, low:2}[s?.toLowerCase()] ?? 3`). -/
def severityRank (s : Option String) : ℕ :=
  match s with
  | none => 3
  | some t =>
    if lowerStr t = "high" then 0
    else if lowerStr t = "medium" then 1
    else if lowerStr t = "low" then 2
    else 3

/-- Comparator used by the stable sort of the remediation plan. -/
def remLe (a b : RemItem) : Bool :=
  decide (severityRank (some a.severity) ≤ severityRank (some b.severity))

/-- The remediation plan built in `analyzeText` (dedupe, stable severity sort,
cap at 6). -/
def remediationPlan (findings : List Finding) : List RemItem :=
  ((dedupeRecommendations findings).mergeSort remLe).take 6

/- ---------------- Scoring & aggregation ---------------- -/

/-- The configured weight map over the five themes (`config.weights`). -/
structure Weights where
  privacy_app : ℚ
  security_e8 : ℚ
  cdss_exemption : ℚ
  contract_fairness : ℚ
  vendor_sharing : ℚ
deriving DecidableEq, Repr

/-- The severity penalty table with its `?? 4` default. -/
def severityPenalty (sev : String) : ℕ :=
  if sev = "high" then 20 else if sev = "medium" then 10 else if sev = "low" then 4 else 4

/-- Penalty contributed by one finding (`(f.severity || "low").toLowerCase()`). -/
def findingPenalty (f : Finding) : ℕ :=
  severityPenalty (lowerStr (strOr f.severity "low"))

/-- A finding's theme key (`f.theme || "other"`). -/
def getTheme (f : Finding) : String := strOr f.theme "other"

/-- The `themeCounters` accumulator object, as a total function with default 0. -/
def themeCounters (findings : List Finding) : String → ℕ :=
  findings.foldl (fun m f t => if t = getTheme f then m t + findingPenalty f else m t)
    (fun _ => 0)

/-- Privacy-theme soft-floor signals. -/
def hasPrivacySignals (text : Str) : Bool :=
  wbci "privacy policy" text || tci "privacy act" text || tci "personal information" text ||
  appDigit text ||
  tci "we collect" text || tci "why we collect" text || tci "how to contact" text ||
  tci "access your information" text || tci "correction" text || tci "retention" text ||
  tci "delete" text || tci "destroy" text

/-- Security-theme soft-floor signals. -/
def hasSecuritySignals (text : Str) : Bool :=
  tci "encryption" text || tci "mfa" text || tci "2fa" text || tci "access control" text ||
  tci "least privilege" text || tci "backup" text || tci "patch" text || tci "incident" text ||
  tci "macro" text || tci "hardening" text || tci "rbac" text

/-- CDSS-theme soft-floor signals. -/
def hasCdssSignals (text : Str) : Bool :=
  tci "not intended to diagnose" text || tci "does not diagnose" text || tci "clinician" text ||
  tci "health professional" text || tci "doctor review" text ||
  tci "educational" text || tci "read-only" text || tci "non-directive" text ||
  tci "guideline" text || tci "threshold" text || tci "transparent" text

/-- Contract-theme soft-floor signals. -/
def hasContractSignals (text : Str) : Bool :=
  tci "limitation of liability" text || tci "liability is limited" text || tci "indemnity" text ||
  tci "indemnify" text || tci "arbitration" text || tci "governing law" text ||
  tci "termination" text || tci "unilateral" text || tci "class action" text

/-- Vendor-theme soft-floor signals (`third part(y|ies)` plus literals). -/
def hasVendorSignals (text : Str) : Bool :=
  tci "third party" text || tci "third parties" text || tci "vendors" text ||
  tci "processors" text || tci "sub-processor" text || tci "share" text ||
  tci "disclose" text || tci "stripe" text || tci "aws" text || tci "google" text ||
  tci "overseas" text || tci "outside australia" text || tci "cross-border" text

/-- The soft-floor detector, as the `floors[theme] ?? 0` lookup of `aggregate`. -/
def detectSoftFloors (text : Str) : String → ℕ := fun theme =>
  if theme = "privacy_app" then (if hasPrivacySignals text then 20 else 0)
  else if theme = "security_e8" then (if hasSecuritySignals text then 20 else 0)
  else if theme = "cdss_exemption" then (if hasCdssSignals text then 20 else 0)
  else if theme = "contract_fairness" then (if hasContractSignals text then 20 else 0)
  else if theme = "vendor_sharing" then (if hasVendorSignals text then 20 else 0)
  else 0

/-- One category's final score:
`max(Math.max(0, 100 - penalty), floors[theme] ?? 0)`. -/
def categoryScore (findings : List Finding) (text : Str) (theme : String) : ℤ :=
  max (max 0 (100 - (themeCounters findings theme : ℤ))) (detectSoftFloors text theme)

/-- `Math.round` on an exact rational. -/
def jsRound (q : ℚ) : ℤ := ⌊q + 1/2⌋

/-- The overall weighted score of `aggregate`. -/
def overallScore (w : Weights) (p s c f v : ℤ) : ℤ :=
  jsRound (p * w.privacy_app + s * w.security_e8 + c * w.cdss_exemption +
    f * w.contract_fairness + v * w.vendor_sharing)

/-- The document-type phrases recognised by `inferTitle`, in alternation order. -/
def titleAlts : List Str :=
  [cs "privacy policy", cs "terms of service", cs "terms and conditions",
   cs "data processing addendum"]

/-- Leftmost, first-alternative match of the title regex, returning the
original-case slice (`m[0]`). -/
def inferTitleGo : Str → Option Str
  | [] => none
  | s@(_ :: rest) =>
    match titleAlts.find? (fun p => isPrefL p (lowerS (s.take p.length))) with
    | some p => some (s.take p.length)
    | none => inferTitleGo rest

/-- The source's `inferTitle`. -/
def inferTitle (t : Str) : Str := (inferTitleGo t).getD (cs "Document")

/-- First date alternative `[A-Za-z]{3,9}\s+\d{1,2},\s*\d{4}` (backtracking
resolved: each greedy run is followed by a character class disjoint from it). -/
def dateAlt1 (r : Str) : Option Str :=
  let letters := r.takeWhile Char.isAlpha
  if 3 ≤ letters.length ∧ letters.length ≤ 9 then
    match r.drop letters.length with
    | [] => none
    | c :: _ =>
      if isJsWs c then
        let r1 := r.drop letters.length
        let ws := r1.takeWhile isJsWs
        let r2 := r1.drop ws.length
        let digits := r2.takeWhile Char.isDigit
        if 1 ≤ digits.length ∧ digits.length ≤ 2 then
          match r2.drop digits.length with
          | ',' :: r4 =>
            let ws2 := r4.takeWhile isJsWs
            let r5 := r4.drop ws2.length
            if (r5.take 4).length = 4 ∧ (r5.take 4).all Char.isDigit then
              some (letters ++ ws ++ digits ++ ',' :: (ws2 ++ r5.take 4))
            else none
          | _ => none
        else none
      else none
  else none

/-- Second date alternative `\d{4}-\d{2}-\d{2}`. -/
def dateAlt2 (r : Str) : Option Str :=
  let d1 := r.take 4
  if d1.length = 4 ∧ d1.all Char.isDigit then
    match r.drop 4 with
    | '-' :: r2 =>
      let d2 := r2.take 2
      if d2.length = 2 ∧ d2.all Char.isDigit then
        match r2.drop 2 with
        | '-' :: r3 =>
          let d3 := r3.take 2
          if d3.length = 2 ∧ d3.all Char.isDigit then
            some (d1 ++ '-' :: (d2 ++ '-' :: d3))
          else none
        | _ => none
      else none
    | _ => none
  else none

/-- After a date keyword: skip `[:\s]*` then try the two date alternatives. -/
def dateAfter (s : Str) : Option Str :=
  let r := s.dropWhile (fun c => c == ':' || isJsWs c)
  match dateAlt1 r with
  | some d => some d
  | none => dateAlt2 r

/-- Scanner for the `detectDates` regex (keyword, separator, date; the match
restarts at the next position when the date part fails). -/
def detectDatesGo : Str → Option Str
  | [] => none
  | s@(_ :: rest) =>
    if isPrefL (cs "last updated") (lowerS (s.take 12)) then
      match dateAfter (s.drop 12) with
      | some d => some d
      | none => detectDatesGo rest
    else if isPrefL (cs "effective date") (lowerS (s.take 14)) then
      match dateAfter (s.drop 14) with
      | some d => some d
      | none => detectDatesGo rest
    else detectDatesGo rest

/-- The source's `detectDates` (`m[2]` or `null`). -/
def detectDates (t : Str) : Option Str := detectDatesGo t

/-- Report document metadata. -/
structure DocMeta where
  title : Str
  source_type : String
  jurisdiction_mentions : List String
  last_updated_detected : Option Str
deriving DecidableEq, Repr

/-- The `scores` object of the report. -/
structure ScoresRec where
  overall : ℤ
  weights : Weights
  privacy_app : ℤ
  security_e8 : ℤ
  cdss_exemption : ℤ
  contract_fairness : ℤ
  vendor_sharing : ℤ
deriving DecidableEq, Repr

/-- The final report value. -/
structure Report where
  doc : DocMeta
  scores : ScoresRec
  findings : List Finding
  remediation_plan : List RemItem
deriving DecidableEq, Repr

/-- The source's `aggregate`. -/
def aggregate (w : Weights) (findings : List Finding) (remediation_plan : List RemItem)
    (rawText : Str) : Report :=
  let p := categoryScore findings rawText "privacy_app"
  let s := categoryScore findings rawText "security_e8"
  let c := categoryScore findings rawText "cdss_exemption"
  let f := categoryScore findings rawText "contract_fairness"
  let v := categoryScore findings rawText "vendor_sharing"
  ⟨⟨inferTitle rawText, "document", ["AU"], detectDates rawText⟩,
   ⟨overallScore w p s c f v, w, p, s, c, f, v⟩,
   findings, remediation_plan⟩

/- ---------------- Indexer & Chunker (`chunkByChar`) ---------------- -/

/-- JavaScript `String.prototype.split('\n')`: always at least one piece. -/
def splitNl : Str → List Str
  | [] => [[]]
  | c :: rest =>
    if c = '\n' then [] :: splitNl rest
    else
      match splitNl rest with
      | [] => [[c]]
      | l :: ls => (c :: l) :: ls

/-- The line marker prepended to line `n` (1-based): the template
`[LINE ${index + 1}] ` of the source. -/
def lineMarker (n : ℕ) : Str := cs "[LINE " ++ cs (toString n) ++ cs "] "

/-- Prefix every line with its marker, starting at index `k`. -/
def idxLines (k : ℕ) : List Str → List Str
  | [] => []
  | l :: ls => (lineMarker k ++ l) :: idxLines (k + 1) ls

/-- JavaScript `Array.prototype.join('\n')`. -/
def joinNl : List Str → Str
  | [] => []
  | [l] => l
  | l :: ls => l ++ '\n' :: joinNl ls

/-- The indexed text built by `chunkByChar` step 1. -/
def indexedOf (rawText : Str) : Str := joinNl (idxLines 1 (splitNl rawText))

/-- The sliding-window loop of `chunkByChar` (`while (i < len) { push(slice); i += step }`).
The step is `s1 + 1`, so the source's `Math.max(1, size - overlap)` lower bound
is intrinsic.  The loop advances by at least one character per iteration, so a
fuel of `txt.length` iterations is exact; `chunkLoop_fuel` shows the result is
independent of the fuel whenever it suffices. -/
def chunkLoop (txt : Str) (size s1 : ℕ) : ℕ → ℕ → List Str
  | 0, _ => []
  | fuel + 1, i =>
    if i < txt.length then (txt.drop i).take size :: chunkLoop txt size s1 fuel (i + (s1 + 1))
    else []

/-- The source's `chunkByChar` (index, slide, fallback). -/
def chunkByChar (rawText : Str) (size overlap : ℕ) : List Str :=
  let indexedText := indexedOf rawText
  let out := chunkLoop indexedText size (max 1 (size - overlap) - 1) indexedText.length 0
  if out = [] then [indexedText] else out

/-- `pat` occurs in `s` at position `p`. -/
def occursAt (pat s : Str) (p : ℕ) : Prop := (s.drop p).take pat.length = pat

/- ---------------- Specification-side definitions ---------------- -/

/-- Severity penalty as the specification words it: `high=20, medium=10,
low=4, unknown=4`, missing severity defaulting to low.  Used only to be
compared against the source's `findingPenalty`. -/
def specSeverityPenalty (sev : Option String) : ℕ :=
  match sev with
  | none => 4
  | some s =>
    if lowerStr s = "high" then 20 else if lowerStr s = "medium" then 10 else 4

/-- Penalty sum as the specification words it: sum over the findings of a
theme of their severity penalties. -/
def specPenaltySum (findings : List Finding) (theme : String) : ℕ :=
  ((findings.filter (fun f => getTheme f == theme)).map
    (fun f => specSeverityPenalty f.severity)).sum

/-- The concrete document of the end-to-end scenario (testable property 7). -/
def c1doc : Str :=
  cs "We collect your name and email for account creation. Contact privacy@example.com for access requests."

/-- A model-derived finding whose theme:title already covers the four APP
needles, used to exhibit the retention gap-fill divergence. -/
def c7f0 : Finding :=
  mk "privacy_app" "app 5 app 11 access to personal correction" "compliant" "low"
    "[LINE 1] ok" "none" "Keep doing this." ["APP 5"] (9/10)

/-- A model-derived finding matching none of the gap-fill needles, used to
instantiate the gap-fill theorem. -/
def c7w : Finding :=
  mk "vendor_sharing" "Vendor list" "compliant" "low"
    "[LINE 1] ok" "none" "Keep the vendor list current." ["APP 8"] (8/10)

/- ---------------- Helper lemmas: chunking ---------------- -/

theorem splitNl_ne_nil (t : Str) : splitNl t ≠ [] := by
  cases t with
  | nil => simp [splitNl]
  | cons c rest =>
    unfold splitNl
    by_cases hc : c = '\n'
    · simp [hc]
    · simp only [if_neg hc]
      cases h : splitNl rest with
      | nil => simp
      | cons l ls => simp

theorem occursAt_here (m rest : Str) : occursAt m (m ++ rest) 0 := by
  unfold occursAt
  rw [List.drop_zero, List.take_left]

theorem occursAt_shift (m pre t : Str) (p : ℕ) (h : occursAt m t p) :
    occursAt m (pre ++ t) (pre.length + p) := by
  unfold occursAt at h ⊢
  rw [List.drop_append]
  exact h

theorem lineMarker_len_pos (n : ℕ) : 1 ≤ (lineMarker n).length := by
  unfold lineMarker
  have h7 : (cs "[LINE ").length = 6 := by decide
  simp only [List.length_append]
  omega

theorem marker_occurs_aux (ls : List Str) (k n : ℕ) (hn : n < ls.length) :
    ∃ p, occursAt (lineMarker (k + n)) (joinNl (idxLines k ls)) p ∧
      p + (lineMarker (k + n)).length ≤ (joinNl (idxLines k ls)).length := by
  induction ls generalizing k n with
  | nil => simp at hn
  | cons l ls ih =>
    cases n with
    | zero =>
      have hpre : ∃ rest : Str, joinNl (idxLines k (l :: ls)) = (lineMarker k ++ l) ++ rest := by
        cases ls with
        | nil => exact ⟨[], by simp [idxLines, joinNl]⟩
        | cons l' ls' => exact ⟨'\n' :: joinNl (idxLines (k + 1) (l' :: ls')), rfl⟩
      obtain ⟨rest, hrest⟩ := hpre
      refine ⟨0, ?_, ?_⟩
      · rw [Nat.add_zero, hrest, List.append_assoc]
        exact occursAt_here _ _
      · rw [Nat.add_zero, hrest]
        simp [List.length_append]
    | succ n =>
      cases ls with
      | nil => simp at hn
      | cons l' ls' =>
        obtain ⟨p, hocc, hlen⟩ := ih (k + 1) n (by simp at hn ⊢; omega)
        have hj : joinNl (idxLines k (l :: l' :: ls'))
            = ((lineMarker k ++ l) ++ ['\n']) ++ joinNl (idxLines (k + 1) (l' :: ls')) := by
          show (lineMarker k ++ l) ++ '\n' :: joinNl (idxLines (k + 1) (l' :: ls')) = _
          simp
        have hkn : k + (n + 1) = (k + 1) + n := by omega
        refine ⟨((lineMarker k ++ l) ++ ['\n']).length + p, ?_, ?_⟩
        · rw [hj, hkn]
          exact occursAt_shift _ _ _ _ hocc
        · rw [hj, hkn]
          simp only [List.length_append]
          omega

theorem indexedOf_head (rawText : Str) : occursAt (lineMarker 1) (indexedOf rawText) 0 := by
  unfold indexedOf
  cases hs : splitNl rawText with
  | nil => exact absurd hs (splitNl_ne_nil rawText)
  | cons l ls =>
    cases ls with
    | nil =>
      simpa [idxLines, joinNl] using occursAt_here (lineMarker 1) l
    | cons l' ls' =>
      have hj : joinNl (idxLines 1 (l :: l' :: ls'))
          = (lineMarker 1 ++ l) ++ '\n' :: joinNl (idxLines (1 + 1) (l' :: ls')) := rfl
      rw [hj, List.append_assoc]
      exact occursAt_here _ _

theorem indexedOf_pos (rawText : Str) : 0 < (indexedOf rawText).length := by
  have h := indexedOf_head rawText
  unfold occursAt at h
  have hlen := congrArg List.length h
  simp [List.length_take, List.length_drop] at hlen
  have := lineMarker_len_pos 1
  omega

theorem chunkLoop_fuel (txt : Str) (size s1 : ℕ) :
    ∀ (fuel fuel' i : ℕ), txt.length - i ≤ fuel → txt.length - i ≤ fuel' →
      chunkLoop txt size s1 fuel i = chunkLoop txt size s1 fuel' i := by
  intro fuel
  induction fuel with
  | zero =>
    intro fuel' i h h'
    have hi : ¬ i < txt.length := by omega
    cases fuel' with
    | zero => rfl
    | succ f' => simp [chunkLoop, hi]
  | succ f ihf =>
    intro fuel' i h h'
    by_cases hi : i < txt.length
    · cases fuel' with
      | zero => omega
      | succ f' =>
        simp only [chunkLoop, if_pos hi]
        rw [ihf f' (i + (s1 + 1)) (by omega) (by omega)]
    · cases fuel' with
      | zero => simp [chunkLoop, hi]
      | succ f' => simp [chunkLoop, hi]

theorem chunkLoop_mem (txt : Str) (size s1 : ℕ) :
    ∀ (k i fuel : ℕ), i + k * (s1 + 1) < txt.length → txt.length - i ≤ fuel →
      (txt.drop (i + k * (s1 + 1))).take size ∈ chunkLoop txt size s1 fuel i := by
  intro k
  induction k with
  | zero =>
    intro i fuel h hf
    simp only [Nat.zero_mul, Nat.add_zero] at h ⊢
    cases fuel with
    | zero => omega
    | succ f =>
      simp only [chunkLoop, if_pos h]
      exact List.mem_cons_self _ _
  | succ k ih =>
    intro i fuel h hf
    have hi : i < txt.length := lt_of_le_of_lt (Nat.le_add_right _ _) h
    cases fuel with
    | zero => omega
    | succ f =>
      simp only [chunkLoop, if_pos hi]
      have harith : i + (k + 1) * (s1 + 1) = (i + (s1 + 1)) + k * (s1 + 1) := by ring
      rw [harith] at h ⊢
      exact List.mem_cons_of_mem _ (ih (i + (s1 + 1)) f h (by omega))

theorem occursAt_chunk (txt : Str) (size s1 p : ℕ) (m : Str)
    (hm1 : 1 ≤ m.length) (hfit : m.length + s1 ≤ size)
    (hocc : occursAt m txt p) (hend : p + m.length ≤ txt.length) :
    ∃ c ∈ chunkLoop txt size s1 txt.length 0, ∃ q, occursAt m c q := by
  have hstpos : 0 < s1 + 1 := Nat.succ_pos s1
  have hdm : (p / (s1 + 1)) * (s1 + 1) + p % (s1 + 1) = p := by
    rw [Nat.mul_comm]
    exact Nat.div_add_mod p (s1 + 1)
  have hmod : p % (s1 + 1) < s1 + 1 := Nat.mod_lt _ hstpos
  have hjle : (p / (s1 + 1)) * (s1 + 1) ≤ p := Nat.div_mul_le_self p (s1 + 1)
  have hplen : p < txt.length := by omega
  have hmem := chunkLoop_mem txt size s1 (p / (s1 + 1)) 0 txt.length (by omega) (by omega)
  simp only [Nat.zero_add] at hmem
  refine ⟨(txt.drop ((p / (s1 + 1)) * (s1 + 1))).take size, hmem,
    p - (p / (s1 + 1)) * (s1 + 1), ?_⟩
  unfold occursAt at hocc ⊢
  rw [List.drop_take, List.drop_drop, List.take_take]
  have hp : (p / (s1 + 1)) * (s1 + 1) + (p - (p / (s1 + 1)) * (s1 + 1)) = p := by omega
  rw [hp]
  have hmin : m.length ⊓ (size - (p - (p / (s1 + 1)) * (s1 + 1))) = m.length := by
    have : p - (p / (s1 + 1)) * (s1 + 1) ≤ s1 := by omega
    exact Nat.min_eq_left (by omega)
  rw [hmin]
  exact hocc

theorem not_occursAt_of_short (pat c : Str) (h : c.length < pat.length) (q : ℕ) :
    ¬ occursAt pat c q := by
  intro hocc
  unfold occursAt at hocc
  have := congrArg List.length hocc
  simp [List.length_take, List.length_drop] at this
  omega

/- ---------------- Claim C10 ---------------- -/

/-- C10: for every input text (including the empty string) the indexed string
built by `chunkByChar` is non-empty — it always begins with the marker
`[LINE 1] ` — so the sliding-window loop always emits at least one chunk and
the trailing fallback branch returning `[indexedText]` is unreachable. -/
theorem chunkByChar_loop_always_emits (rawText : Str) (size overlap : ℕ) :
    occursAt (lineMarker 1) (indexedOf rawText) 0 ∧
    0 < (indexedOf rawText).length ∧
    chunkByChar rawText size overlap
      = chunkLoop (indexedOf rawText) size (max 1 (size - overlap) - 1)
          (indexedOf rawText).length 0 ∧
    chunkByChar rawText size overlap ≠ [] := by
  have hhead := indexedOf_head rawText
  have hpos := indexedOf_pos rawText
  have hloop : chunkLoop (indexedOf rawText) size (max 1 (size - overlap) - 1)
      (indexedOf rawText).length 0 ≠ [] := by
    obtain ⟨f, hf⟩ : ∃ f, (indexedOf rawText).length = f + 1 :=
      ⟨(indexedOf rawText).length - 1, by omega⟩
    rw [hf]
    simp only [chunkLoop]
    rw [if_pos hpos]
    simp
  have hcbc : chunkByChar rawText size overlap
      = chunkLoop (indexedOf rawText) size (max 1 (size - overlap) - 1)
          (indexedOf rawText).length 0 := by
    unfold chunkByChar
    simp [hloop]
  exact ⟨hhead, hpos, hcbc, by rw [hcbc]; exact hloop⟩

/- ---------------- Claim C6 ---------------- -/

/-- C6 counterexample: with text `"a"`, chunk size `S = 2` and overlap
`O = 1` (so `S > 0` and `0 ≤ O < S` hold), chunking returns chunks — but the
line marker `[LINE 1] ` of the indexed form appears in none of them, because
every chunk is shorter than the marker.  This refutes the claim that every
line marker appears verbatim in at least one chunk for every `S > 0`,
`0 ≤ O < S`. -/
theorem chunkByChar_marker_split_counterexample :
    (0 : ℕ) < 2 ∧ (1 : ℕ) < 2 ∧
    chunkByChar (cs "a") 2 1 ≠ [] ∧
    ∀ c ∈ chunkByChar (cs "a") 2 1, ∀ q, ¬ occursAt (lineMarker 1) c q := by
  refine ⟨by norm_num, by norm_num, by decide, ?_⟩
  intro c hc q
  apply not_occursAt_of_short
  exact (by decide : ∀ c ∈ chunkByChar (cs "a") 2 1, c.length < (lineMarker 1).length) c hc

/-- C6 (amended): for every text `T`, chunk size `S > 0` and overlap
`0 ≤ O < S`, `chunkByChar` returns at least one chunk; and — provided the
marker fits inside the window overlap, i.e. the marker's length is at most
`O + 1` — every line marker `[LINE n] ` of `T`'s indexed form appears
verbatim (unsplit) in at least one returned chunk. -/
theorem chunkByChar_covers_markers (rawText : Str) (size overlap n : ℕ)
    (_hsz : 0 < size) (hov : overlap < size)
    (hn : n < (splitNl rawText).length)
    (hfit : (lineMarker (n + 1)).length ≤ overlap + 1) :
    chunkByChar rawText size overlap ≠ [] ∧
    ∃ c ∈ chunkByChar rawText size overlap, ∃ q, occursAt (lineMarker (n + 1)) c q := by
  obtain ⟨p, hocc, hend⟩ := marker_occurs_aux (splitNl rawText) 1 n hn
  rw [Nat.add_comm 1 n] at hocc hend
  obtain ⟨hhead, hpos, hcbc, hne⟩ := chunkByChar_loop_always_emits rawText size overlap
  have hs1 : max 1 (size - overlap) - 1 = size - overlap - 1 := by omega
  have hm1 : 1 ≤ (lineMarker (n + 1)).length := lineMarker_len_pos (n + 1)
  have hfit' : (lineMarker (n + 1)).length + (max 1 (size - overlap) - 1) ≤ size := by
    rw [hs1]; omega
  refine ⟨hne, ?_⟩
  rw [hcbc]
  exact occursAt_chunk (indexedOf rawText) size (max 1 (size - overlap) - 1) p
    (lineMarker (n + 1)) hm1 hfit' hocc hend

/-- C6 witness: concrete instance of `chunkByChar_covers_markers` for the
two-line text `"hello\nworld"`, `S = 30`, `O = 10`, marker `[LINE 2] `. -/
theorem chunkByChar_covers_markers_witness :
    ((0 : ℕ) < 30 ∧ (10 : ℕ) < 30 ∧ 1 < (splitNl (cs "hello\nworld")).length ∧
      (lineMarker (1 + 1)).length ≤ 10 + 1) ∧
    (chunkByChar (cs "hello\nworld") 30 10 ≠ [] ∧
      ∃ c ∈ chunkByChar (cs "hello\nworld") 30 10, ∃ q, occursAt (lineMarker (1 + 1)) c q) :=
  ⟨⟨by norm_num, by norm_num, by decide, by decide⟩,
   chunkByChar_covers_markers (cs "hello\nworld") 30 10 1
     (by norm_num) (by norm_num) (by decide) (by decide)⟩

/- ---------------- Claim C2 ---------------- -/

theorem arrOrEmpty_nonarr (j : JVal) (h : isArrB (some j) = false) : arrOrEmpty j = [] := by
  cases j <;> simp_all [arrOrEmpty, isArrB]

theorem bracketTier_no_array (jp : Str → Option JVal) (t : Str)
    (h : (match bracketSub t with
          | some b => !isArrB (jp b)
          | none => true) = true) :
    bracketTier jp t = [] := by
  cases hb : bracketSub t with
  | none => simp [bracketTier, hb]
  | some b =>
    simp only [hb] at h
    cases hjb : jp b with
    | none => simp [bracketTier, hb, hjb]
    | some j =>
      rw [hjb] at h
      simp only [bracketTier, hb, hjb]
      exact arrOrEmpty_nonarr j (by simpa using h)

/-- C2: the response recoverer is total by construction (it is a Lean
function into `List JVal`, modelling "never throws, always returns a
sequence of records"), and whenever no recovery tier — whole-text parse,
first fenced block, first bracketed substring — yields a JSON array, it
returns the empty sequence.  This covers non-string inputs (`none`), the
empty string, plain prose, malformed JSON (`jp _ = none`), and valid JSON
whose top-level value is not an array. -/
theorem parseGeminiJson_no_array_empty (jp : Str → Option JVal) (text : Option Str)
    (h : tiersNoArray jp text = true) : parseGeminiJson jp text = [] := by
  cases text with
  | none => rfl
  | some t =>
    unfold tiersNoArray at h
    simp only [Bool.and_eq_true] at h
    obtain ⟨⟨h1, h2⟩, h3⟩ := h
    unfold parseGeminiJson
    by_cases ht : t = []
    · simp [ht]
    · simp only [if_neg ht]
      cases hjp : jp t with
      | some j =>
        rw [hjp] at h1
        simp only [hjp]
        exact arrOrEmpty_nonarr j (by simpa using h1)
      | none =>
        simp only [hjp]
        cases hf : findFence t with
        | some content =>
          simp only [hf] at h2 ⊢
          cases hjc : jp content with
          | some j =>
            rw [hjc] at h2
            simp only [hjc]
            exact arrOrEmpty_nonarr j (by simpa using h2)
          | none =>
            simp only [hjc]
            exact bracketTier_no_array jp t h3
        | none =>
          simp only [hf]
          exact bracketTier_no_array jp t h3

/-- C2 witness: the always-throwing parser on plain prose; no tier yields an
array and the recoverer returns the empty sequence. -/
theorem parseGeminiJson_no_array_empty_witness :
    tiersNoArray (fun _ => none) (some (cs "no structured output here")) = true ∧
    parseGeminiJson (fun _ => none) (some (cs "no structured output here")) = [] :=
  ⟨by decide, parseGeminiJson_no_array_empty _ _ (by decide)⟩

/- ---------------- Claim C1 ---------------- -/

set_option maxRecDepth 8000

/-- C1 counterexample: on the end-to-end scenario document, the heuristic
engine DOES produce an APP 5 collection-notice finding (the rule requires
"we collect" AND "why we collect" AND "how to contact"; the last two are
absent), and the patient-facing `cdss_exemption` rule produces no finding
(the document never mentions "patient"), so not every domain-exemption rule
fires.  This refutes the claim's "no collection-notice finding" and "every
cdss_exemption rule" conjuncts. -/
theorem heuristicsAU_scenario_counterexample :
    (∃ f ∈ heuristicsAU c1doc, f.theme = some "privacy_app" ∧
      f.title = some "APP 5 collection notice" ∧ f.status = some "undisclosed") ∧
    (∀ f ∈ heuristicsAU c1doc, f.title ≠ some "Patient-facing mode disclaimer") := by
  decide

/-- C1 (amended): on the scenario document the heuristic engine produces
undisclosed findings for cross-border disclosure, security of information,
retention, and every `cdss_exemption` rule except the conditional
patient-facing rule (which requires a "patient" mention); it ALSO produces
the APP 5 collection-notice finding, because the rule demands "we collect",
"why we collect" and "how to contact" all be present; and the privacy
category score is strictly less than 100. -/
theorem heuristicsAU_scenario_amended :
    (∃ f ∈ heuristicsAU c1doc, f.theme = some "privacy_app" ∧
      f.title = some "APP 8 cross-border disclosures" ∧ f.status = some "undisclosed") ∧
    (∃ f ∈ heuristicsAU c1doc, f.theme = some "privacy_app" ∧
      f.title = some "APP 11 security of personal information" ∧ f.status = some "undisclosed") ∧
    (∃ f ∈ heuristicsAU c1doc, f.theme = some "privacy_app" ∧
      f.title = some "Retention & deletion" ∧ f.status = some "undisclosed") ∧
    (∃ f ∈ heuristicsAU c1doc, f.theme = some "cdss_exemption" ∧
      f.title = some "Non-diagnostic disclaimer" ∧ f.status = some "undisclosed") ∧
    (∃ f ∈ heuristicsAU c1doc, f.theme = some "cdss_exemption" ∧
      f.title = some "Clinician oversight" ∧ f.status = some "undisclosed") ∧
    (∃ f ∈ heuristicsAU c1doc, f.theme = some "cdss_exemption" ∧
      f.title = some "Transparency of logic" ∧ f.status = some "undisclosed") ∧
    (∃ f ∈ heuristicsAU c1doc, f.theme = some "cdss_exemption" ∧
      f.title = some "Scope limitations" ∧ f.status = some "undisclosed") ∧
    (∀ f ∈ heuristicsAU c1doc, f.title ≠ some "Patient-facing mode disclaimer") ∧
    (∃ f ∈ heuristicsAU c1doc, f.theme = some "privacy_app" ∧
      f.title = some "APP 5 collection notice" ∧ f.status = some "undisclosed") ∧
    categoryScore (heuristicsAU c1doc) c1doc "privacy_app" < 100 := by
  decide

/- ---------------- Claim C3 ---------------- -/

theorem findingPenalty_eq_spec (f : Finding) :
    findingPenalty f = specSeverityPenalty f.severity := by
  unfold findingPenalty specSeverityPenalty strOr
  cases hs : f.severity with
  | none => decide
  | some s =>
    by_cases he : s = ""
    · subst he; decide
    · simp only [if_neg he]
      unfold severityPenalty
      by_cases h1 : lowerStr s = "high"
      · simp [h1]
      · by_cases h2 : lowerStr s = "medium"
        · simp [h1, h2]
        · by_cases h3 : lowerStr s = "low" <;> simp [h1, h2, h3]

theorem themeCounters_aux (fs : List Finding) (m : String → ℕ) (t : String) :
    fs.foldl (fun m f t => if t = getTheme f then m t + findingPenalty f else m t) m t
      = m t + specPenaltySum fs t := by
  induction fs generalizing m with
  | nil => simp [specPenaltySum]
  | cons f fs ih =>
    simp only [List.foldl_cons]
    rw [ih]
    unfold specPenaltySum
    simp only [List.filter_cons]
    by_cases h : getTheme f = t
    · have hb : (getTheme f == t) = true := by simp [h]
      simp only [hb, if_pos h.symm, List.map_cons, List.sum_cons, if_true]
      rw [findingPenalty_eq_spec]
      omega
    · have hb : (getTheme f == t) = false := by simp [h]
      have h' : ¬ t = getTheme f := fun he => h he.symm
      simp only [hb, if_neg h', Bool.false_eq_true, if_false]

theorem themeCounters_eq_spec (findings : List Finding) (theme : String) :
    themeCounters findings theme = specPenaltySum findings theme := by
  have h := themeCounters_aux findings (fun _ => 0) theme
  simpa [themeCounters] using h

/-- C3: every category score equals
`max(max(0, 100 − penaltySum), floor)` where `penaltySum` sums per-finding
penalties over the findings of that theme (`high=20, medium=10, low=4`,
missing or unrecognized severity counted as 4), and the floor — 20 when the
document matches the theme's signal regexes, 0 otherwise — is the
`detectSoftFloors` value; hence every category score lies in `[0, 100]`. -/
theorem categoryScore_spec (findings : List Finding) (text : Str) (theme : String) :
    categoryScore findings text theme
      = max (max 0 (100 - (specPenaltySum findings theme : ℤ)))
          ((detectSoftFloors text theme : ℤ)) ∧
    (detectSoftFloors text theme = 0 ∨ detectSoftFloors text theme = 20) ∧
    0 ≤ categoryScore findings text theme ∧ categoryScore findings text theme ≤ 100 := by
  have hfl : detectSoftFloors text theme = 0 ∨ detectSoftFloors text theme = 20 := by
    unfold detectSoftFloors
    split_ifs <;> simp
  refine ⟨?_, hfl, ?_, ?_⟩
  · unfold categoryScore
    rw [themeCounters_eq_spec]
  · exact le_max_of_le_left (le_max_left _ _)
  · unfold categoryScore
    apply max_le
    · apply max_le
      · norm_num
      · omega
    · rcases hfl with h | h <;> rw [h] <;> norm_num

/- ---------------- Claim C8 ---------------- -/

theorem themeCounters_append (fs : List Finding) (g : Finding) (t : String) :
    themeCounters (fs ++ [g]) t
      = if t = getTheme g then themeCounters fs t + findingPenalty g
        else themeCounters fs t := by
  unfold themeCounters
  rw [List.foldl_append]
  simp

theorem categoryScore_append_ne (findings : List Finding) (g : Finding) (text : Str)
    (t : String) (h : t ≠ getTheme g) :
    categoryScore (findings ++ [g]) text t = categoryScore findings text t := by
  unfold categoryScore
  rw [themeCounters_append, if_neg h]

/-- C8: appending a finding whose theme key is not one of the five fixed
themes (a missing theme is keyed `"other"`) leaves all five category scores
and the overall score of `aggregate` unchanged: its penalty accrues to a
counter no category reads. -/
theorem aggregate_ignores_unknown_theme (w : Weights) (findings : List Finding)
    (g : Finding) (plan : List RemItem) (text : Str)
    (h : getTheme g ∉ (["privacy_app", "security_e8", "cdss_exemption",
      "contract_fairness", "vendor_sharing"] : List String)) :
    (aggregate w (findings ++ [g]) plan text).scores
      = (aggregate w findings plan text).scores := by
  simp only [List.mem_cons, List.not_mem_nil, or_false, not_or] at h
  obtain ⟨h1, h2, h3, h4, h5⟩ := h
  have e1 := categoryScore_append_ne findings g text "privacy_app" (fun he => h1 he.symm)
  have e2 := categoryScore_append_ne findings g text "security_e8" (fun he => h2 he.symm)
  have e3 := categoryScore_append_ne findings g text "cdss_exemption" (fun he => h3 he.symm)
  have e4 := categoryScore_append_ne findings g text "contract_fairness" (fun he => h4 he.symm)
  have e5 := categoryScore_append_ne findings g text "vendor_sharing" (fun he => h5 he.symm)
  simp only [aggregate, e1, e2, e3, e4, e5]

/-- C8 witness: a finding with theme `"misc"` added to the empty list leaves
the scores record unchanged. -/
theorem aggregate_ignores_unknown_theme_witness :
    (getTheme (mk "misc" "t" "undisclosed" "high" "e" "i" "r" [] (1/2))
        ∉ (["privacy_app", "security_e8", "cdss_exemption",
            "contract_fairness", "vendor_sharing"] : List String)) ∧
    (aggregate ⟨1/5, 1/5, 1/5, 1/5, 1/5⟩
        ([] ++ [mk "misc" "t" "undisclosed" "high" "e" "i" "r" [] (1/2)]) [] []).scores
      = (aggregate ⟨1/5, 1/5, 1/5, 1/5, 1/5⟩ [] [] []).scores :=
  ⟨by decide,
   aggregate_ignores_unknown_theme ⟨1/5, 1/5, 1/5, 1/5, 1/5⟩ []
     (mk "misc" "t" "undisclosed" "high" "e" "i" "r" [] (1/2)) [] [] (by decide)⟩

/- ---------------- Claim C5 ---------------- -/

/-- C5 counterexample: a weight map whose entries sum to 1.0 but with a
negative entry drives the rounded weighted sum of in-range category scores
above 100, refuting the claim for arbitrary weight maps summing to 1. -/
theorem overallScore_negative_weight_counterexample :
    ((⟨2, -1, 0, 0, 0⟩ : Weights).privacy_app + (⟨2, -1, 0, 0, 0⟩ : Weights).security_e8 +
      (⟨2, -1, 0, 0, 0⟩ : Weights).cdss_exemption + (⟨2, -1, 0, 0, 0⟩ : Weights).contract_fairness +
      (⟨2, -1, 0, 0, 0⟩ : Weights).vendor_sharing = 1) ∧
    ((0:ℤ) ≤ 100 ∧ (100:ℤ) ≤ 100) ∧
    100 < overallScore ⟨2, -1, 0, 0, 0⟩ 100 0 0 0 0 := by
  refine ⟨by norm_num, ⟨by norm_num, le_refl _⟩, ?_⟩
  have h : (101 : ℤ) ≤ overallScore ⟨2, -1, 0, 0, 0⟩ 100 0 0 0 0 := by
    unfold overallScore jsRound
    rw [Int.le_floor]
    push_cast
    norm_num
  omega

/-- C5 (amended): for every weight map over the five themes with NONNEGATIVE
entries summing to 1.0 and category scores in `[0, 100]`, the rounded
weighted overall score lies in `[0, 100]`. -/
theorem overallScore_in_range (w : Weights) (p s c f v : ℤ)
    (hw0 : 0 ≤ w.privacy_app ∧ 0 ≤ w.security_e8 ∧ 0 ≤ w.cdss_exemption ∧
      0 ≤ w.contract_fairness ∧ 0 ≤ w.vendor_sharing)
    (hw1 : w.privacy_app + w.security_e8 + w.cdss_exemption +
      w.contract_fairness + w.vendor_sharing = 1)
    (hp : 0 ≤ p ∧ p ≤ 100) (hs : 0 ≤ s ∧ s ≤ 100) (hc : 0 ≤ c ∧ c ≤ 100)
    (hf : 0 ≤ f ∧ f ≤ 100) (hv : 0 ≤ v ∧ v ≤ 100) :
    0 ≤ overallScore w p s c f v ∧ overallScore w p s c f v ≤ 100 := by
  obtain ⟨w1, w2, w3, w4, w5⟩ := hw0
  have hp' : (0:ℚ) ≤ (p:ℚ) ∧ (p:ℚ) ≤ 100 := by exact_mod_cast hp
  have hs' : (0:ℚ) ≤ (s:ℚ) ∧ (s:ℚ) ≤ 100 := by exact_mod_cast hs
  have hc' : (0:ℚ) ≤ (c:ℚ) ∧ (c:ℚ) ≤ 100 := by exact_mod_cast hc
  have hf' : (0:ℚ) ≤ (f:ℚ) ∧ (f:ℚ) ≤ 100 := by exact_mod_cast hf
  have hv' : (0:ℚ) ≤ (v:ℚ) ∧ (v:ℚ) ≤ 100 := by exact_mod_cast hv
  have hq0 : (0:ℚ) ≤ (p:ℚ) * w.privacy_app + (s:ℚ) * w.security_e8 +
      (c:ℚ) * w.cdss_exemption + (f:ℚ) * w.contract_fairness + (v:ℚ) * w.vendor_sharing := by
    have := mul_nonneg hp'.1 w1
    have := mul_nonneg hs'.1 w2
    have := mul_nonneg hc'.1 w3
    have := mul_nonneg hf'.1 w4
    have := mul_nonneg hv'.1 w5
    linarith
  have hq100 : (p:ℚ) * w.privacy_app + (s:ℚ) * w.security_e8 +
      (c:ℚ) * w.cdss_exemption + (f:ℚ) * w.contract_fairness + (v:ℚ) * w.vendor_sharing
      ≤ 100 := by
    have := mul_nonneg (sub_nonneg.mpr hp'.2) w1
    have := mul_nonneg (sub_nonneg.mpr hs'.2) w2
    have := mul_nonneg (sub_nonneg.mpr hc'.2) w3
    have := mul_nonneg (sub_nonneg.mpr hf'.2) w4
    have := mul_nonneg (sub_nonneg.mpr hv'.2) w5
    nlinarith [hw1]
  constructor
  · unfold overallScore jsRound
    rw [Int.le_floor]
    push_cast
    linarith
  · unfold overallScore jsRound
    have hub : (p:ℚ) * w.privacy_app + (s:ℚ) * w.security_e8 + (c:ℚ) * w.cdss_exemption +
        (f:ℚ) * w.contract_fairness + (v:ℚ) * w.vendor_sharing + 1/2 < (101 : ℤ) := by
      push_cast
      linarith
    have hlt := Int.floor_lt.mpr hub
    omega

/-- C5 witness: equal fifths and all category scores 50. -/
theorem overallScore_in_range_witness :
    ((0:ℚ) ≤ (⟨1/5, 1/5, 1/5, 1/5, 1/5⟩ : Weights).privacy_app ∧
      (⟨1/5, 1/5, 1/5, 1/5, 1/5⟩ : Weights).privacy_app + (1:ℚ)/5 + 1/5 + 1/5 + 1/5 = 1) ∧
    (0 ≤ overallScore ⟨1/5, 1/5, 1/5, 1/5, 1/5⟩ 50 50 50 50 50 ∧
      overallScore ⟨1/5, 1/5, 1/5, 1/5, 1/5⟩ 50 50 50 50 50 ≤ 100) :=
  ⟨⟨by norm_num, by norm_num⟩,
   overallScore_in_range ⟨1/5, 1/5, 1/5, 1/5, 1/5⟩ 50 50 50 50 50
     ⟨by norm_num, by norm_num, by norm_num, by norm_num, by norm_num⟩ (by norm_num)
     ⟨by norm_num, by norm_num⟩ ⟨by norm_num, by norm_num⟩ ⟨by norm_num, by norm_num⟩
     ⟨by norm_num, by norm_num⟩ ⟨by norm_num, by norm_num⟩⟩

/- ---------------- Claim C4 ---------------- -/

theorem remLe_trans (a b c : RemItem) (hab : remLe a b = true) (hbc : remLe b c = true) :
    remLe a c = true := by
  simp only [remLe, decide_eq_true_eq] at *
  omega

theorem remLe_total (a b : RemItem) : (remLe a b || remLe b a) = true := by
  simp only [remLe, Bool.or_eq_true, decide_eq_true_eq]
  omega

theorem dedupeGo_keys (fs : List Finding) :
    ∀ seen : List String,
    (∀ item ∈ dedupeGo fs seen, seen.contains (take200 item.recommendation) = false) ∧
    List.Pairwise (fun a b : RemItem => take200 a.recommendation ≠ take200 b.recommendation)
      (dedupeGo fs seen) := by
  induction fs with
  | nil => intro seen; exact ⟨by simp [dedupeGo], by simp [dedupeGo]⟩
  | cons f fs ih =>
    intro seen
    unfold dedupeGo
    by_cases hkey : (recKey f != "" && !(seen.contains (recKey f))) = true
    · rw [if_pos hkey]
      simp only [Bool.and_eq_true, bne_iff_ne, Bool.not_eq_true'] at hkey
      obtain ⟨hk1, hk2⟩ := hkey
      obtain ⟨ihA, ihB⟩ := ih (recKey f :: seen)
      constructor
      · intro item hitem
        rcases List.mem_cons.mp hitem with he | ht
        · subst he
          exact hk2
        · have h := ihA item ht
          rw [List.contains_cons, Bool.or_eq_false_iff] at h
          exact h.2
      · refine List.Pairwise.cons ?_ ihB
        intro b hb
        have h := ihA b hb
        rw [List.contains_cons, Bool.or_eq_false_iff] at h
        intro he
        have hbe : (take200 b.recommendation == recKey f) = false := h.1
        rw [show take200 b.recommendation = recKey f from he.symm] at hbe
        simp at hbe
    · rw [if_neg hkey]
      exact ih seen

/-- C4: the remediation plan — deduplicated, stably severity-sorted, capped —
has at most 6 items, is non-decreasing in severity rank
(`high=0 < medium=1 < low=2 < unknown=3`), and no two of its items carry
recommendations sharing an identical first-200-character prefix. -/
theorem remediationPlan_spec (findings : List Finding) :
    (remediationPlan findings).length ≤ 6 ∧
    List.Pairwise (fun a b : RemItem =>
      severityRank (some a.severity) ≤ severityRank (some b.severity))
      (remediationPlan findings) ∧
    List.Pairwise (fun a b : RemItem =>
      take200 a.recommendation ≠ take200 b.recommendation)
      (remediationPlan findings) := by
  unfold remediationPlan
  refine ⟨List.length_take_le 6 _, ?_, ?_⟩
  · have hs := List.sorted_mergeSort remLe_trans remLe_total (dedupeRecommendations findings)
    have hs' : List.Pairwise (fun a b : RemItem =>
        severityRank (some a.severity) ≤ severityRank (some b.severity))
        ((dedupeRecommendations findings).mergeSort remLe) :=
      hs.imp (fun hab => by simpa [remLe] using hab)
    exact hs'.sublist (List.take_sublist 6 _)
  · have hper := List.mergeSort_perm (dedupeRecommendations findings) remLe
    have hpw := (dedupeGo_keys findings []).2
    exact ((List.Perm.pairwise_iff (fun h => Ne.symm h) hper).mpr hpw).sublist
      (List.take_sublist 6 _)

/- ---------------- Claim C9 ---------------- -/

theorem dedupeGo_items (fs : List Finding) :
    ∀ (seen : List String) (item : RemItem), item ∈ dedupeGo fs seen →
    ∃ f ∈ fs, recKey f ≠ "" ∧
      item = ⟨strOr f.id "R-xxxxxx", strOr f.title (recKey f), strOr f.severity "medium",
        strOr f.recommendation ""⟩ := by
  induction fs with
  | nil => intro seen item h; simp [dedupeGo] at h
  | cons f fs ih =>
    intro seen item h
    unfold dedupeGo at h
    by_cases hkey : (recKey f != "" && !(seen.contains (recKey f))) = true
    · rw [if_pos hkey] at h
      simp only [Bool.and_eq_true, bne_iff_ne] at hkey
      rcases List.mem_cons.mp h with he | ht
      · exact ⟨f, List.mem_cons_self _ _, hkey.1, he⟩
      · obtain ⟨g, hg, hk, he⟩ := ih (recKey f :: seen) item ht
        exact ⟨g, List.mem_cons_of_mem _ hg, hk, he⟩
    · rw [if_neg hkey] at h
      obtain ⟨g, hg, hk, he⟩ := ih seen item h
      exact ⟨g, List.mem_cons_of_mem _ hg, hk, he⟩

/-- C9: every deduplicated remediation item stems from a finding with a
non-empty recommendation (findings whose recommendation is missing or empty
are excluded entirely, their empty dedup key being skipped), and an item
built from a finding with a missing severity carries severity `"medium"`. -/
theorem dedupe_excludes_empty_defaults_medium (findings : List Finding) (item : RemItem)
    (h : item ∈ dedupeRecommendations findings) :
    item.recommendation ≠ "" ∧
    ∃ f ∈ findings, item.recommendation = strOr f.recommendation "" ∧
      item.severity = strOr f.severity "medium" := by
  obtain ⟨f, hf, hk, he⟩ := dedupeGo_items findings [] item h
  subst he
  refine ⟨?_, f, hf, rfl, rfl⟩
  intro hemp
  apply hk
  unfold recKey
  have hemp' : strOr f.recommendation "" = "" := hemp
  rw [hemp']
  decide

/-- C9 witness: a finding with a present recommendation and a missing
severity yields exactly one item, recommendation intact and severity
`"medium"`. -/
theorem dedupe_excludes_empty_defaults_medium_witness :
    ((⟨"R-xxxxxx", "Fix it", "medium", "Fix it"⟩ : RemItem) ∈
      dedupeRecommendations
        [⟨none, some "privacy_app", none, none, none, none, none, some "Fix it", [], 1/2⟩]) ∧
    ((⟨"R-xxxxxx", "Fix it", "medium", "Fix it"⟩ : RemItem).recommendation ≠ "" ∧
      ∃ f ∈ [(⟨none, some "privacy_app", none, none, none, none, none, some "Fix it", [], 1/2⟩ :
          Finding)],
        (⟨"R-xxxxxx", "Fix it", "medium", "Fix it"⟩ : RemItem).recommendation
          = strOr f.recommendation "" ∧
        (⟨"R-xxxxxx", "Fix it", "medium", "Fix it"⟩ : RemItem).severity
          = strOr f.severity "medium") :=
  ⟨by decide, dedupe_excludes_empty_defaults_medium _ _ (by decide)⟩

/- ---------------- Claim C7 ---------------- -/

theorem mem_addF (fs : List Finding) (g x : Finding) (h : x ∈ fs) : x ∈ addF fs g := by
  unfold addF
  split
  · exact h
  · exact List.mem_append_left _ h

theorem exists_title_addF (fs : List Finding) (g : Finding) (t : String)
    (ht : g.title = some t) (hne : t ≠ "") :
    ∃ x ∈ addF fs g, x.title = some t := by
  unfold addF
  by_cases hd : fs.any (fun x => strOr x.title "" == strOr g.title "") = true
  · rw [if_pos hd]
    obtain ⟨x, hx, he⟩ := List.any_eq_true.mp hd
    refine ⟨x, hx, ?_⟩
    have he' : strOr x.title "" = strOr g.title "" := by simpa using he
    have hg : strOr g.title "" = t := by rw [ht]; simp [strOr, hne]
    rw [hg] at he'
    cases hx2 : x.title with
    | none =>
      rw [hx2] at he'
      simp [strOr] at he'
      exact absurd he'.symm hne
    | some u =>
      rw [hx2] at he'
      by_cases hu : u = ""
      · rw [hu] at he'
        simp [strOr] at he'
        exact absurd he'.symm hne
      · simp [strOr, hu] at he'
        exact congrArg some he'
  · rw [if_neg hd]
    exact ⟨g, List.mem_append_right _ (List.mem_cons_self _ _), ht⟩

theorem exists_title_if_addF (fs : List Finding) (g : Finding) (t : String) (c : Prop)
    [Decidable c] (h : ∃ x ∈ fs, x.title = some t) :
    ∃ x ∈ (if c then addF fs g else fs), x.title = some t := by
  split
  · obtain ⟨x, hx, he⟩ := h
    exact ⟨x, mem_addF _ _ _ hx, he⟩
  · exact h

theorem haveNeedle_addF (fs : List Finding) (g : Finding) (needle : String)
    (hg : containsSub (cs needle) (lowerS (cs (interpTT g))) = false) :
    haveNeedle (addF fs g) needle = haveNeedle fs needle := by
  unfold addF
  split
  · rfl
  · unfold haveNeedle
    rw [List.any_append]
    simp [hg]

/-- C7 counterexample: with a non-empty model-derived finding list whose
theme:title covers all four APP needles, and a document text that mentions
"retain", the gap-fill leaves the list unchanged — in particular the
retention finding, whose title is NOT present among the findings, is NOT
added, because the retention rule tests the document text rather than the
finding titles.  This refutes the claim for the retention member of the
mandatory five. -/
theorem ensureMinimumAU_retention_counterexample :
    (∀ f ∈ ([c7f0] : List Finding), f.title ≠ some "Retention & deletion") ∧
    retentionRegexAU (cs "we retain data") = true ∧
    (∀ f ∈ ensureMinimumAU [c7f0] (cs "we retain data"),
      f.title ≠ some "Retention & deletion") := by
  refine ⟨by decide, by decide, by decide⟩

/-- C7 (amended): on a non-empty finding list, the gap-fill guarantees the
presence of each of the four APP mandatory findings (collection notice,
security, access, correction) whenever no existing finding's theme:title
contains the corresponding needle; the retention finding, by contrast, is
keyed on the DOCUMENT TEXT: it is guaranteed present whenever the text lacks
the retention keywords, not whenever its title is missing from the findings. -/
theorem ensureMinimumAU_gap_fill (findings : List Finding) (text : Str)
    (_hne : findings ≠ []) :
    (haveNeedle findings "app 5" = false →
      ∃ f ∈ ensureMinimumAU findings text, f.title = some "APP 5 collection notice") ∧
    (haveNeedle findings "app 11" = false →
      ∃ f ∈ ensureMinimumAU findings text,
        f.title = some "APP 11 security of personal information") ∧
    (haveNeedle findings "access to personal" = false →
      ∃ f ∈ ensureMinimumAU findings text,
        f.title = some "APP 12 access to personal information") ∧
    (haveNeedle findings "correction" = false →
      ∃ f ∈ ensureMinimumAU findings text,
        f.title = some "APP 13 correction of personal information") ∧
    (retentionRegexAU text = false →
      ∃ f ∈ ensureMinimumAU findings text, f.title = some "Retention & deletion") := by
  obtain ⟨fs1, hfs1⟩ : ∃ fs1, fs1
      = (if !(haveNeedle findings "app 5") then addF findings gapApp5 else findings) :=
    ⟨_, rfl⟩
  obtain ⟨fs2, hfs2⟩ : ∃ fs2, fs2
      = (if !(haveNeedle fs1 "app 11") then addF fs1 gapApp11 else fs1) := ⟨_, rfl⟩
  obtain ⟨fs3, hfs3⟩ : ∃ fs3, fs3
      = (if !(haveNeedle fs2 "access to personal") then addF fs2 gapApp12 else fs2) :=
    ⟨_, rfl⟩
  obtain ⟨fs4, hfs4⟩ : ∃ fs4, fs4
      = (if !(haveNeedle fs3 "correction") then addF fs3 gapApp13 else fs3) := ⟨_, rfl⟩
  have hres : ensureMinimumAU findings text
      = (if !(retentionRegexAU text) then addF fs4 gapRetention else fs4) := by
    simp only [ensureMinimumAU]
    rw [← hfs1, ← hfs2, ← hfs3, ← hfs4]
  have e1_11 : haveNeedle fs1 "app 11" = haveNeedle findings "app 11" := by
    rw [hfs1]
    split
    · exact haveNeedle_addF _ _ _ (by decide)
    · rfl
  have e1_12 : haveNeedle fs1 "access to personal"
      = haveNeedle findings "access to personal" := by
    rw [hfs1]
    split
    · exact haveNeedle_addF _ _ _ (by decide)
    · rfl
  have e2_12 : haveNeedle fs2 "access to personal" = haveNeedle fs1 "access to personal" := by
    rw [hfs2]
    split
    · exact haveNeedle_addF _ _ _ (by decide)
    · rfl
  have e1_13 : haveNeedle fs1 "correction" = haveNeedle findings "correction" := by
    rw [hfs1]
    split
    · exact haveNeedle_addF _ _ _ (by decide)
    · rfl
  have e2_13 : haveNeedle fs2 "correction" = haveNeedle fs1 "correction" := by
    rw [hfs2]
    split
    · exact haveNeedle_addF _ _ _ (by decide)
    · rfl
  have e3_13 : haveNeedle fs3 "correction" = haveNeedle fs2 "correction" := by
    rw [hfs3]
    split
    · exact haveNeedle_addF _ _ _ (by decide)
    · rfl
  have step2 : ∀ t : String, (∃ x ∈ fs1, x.title = some t) → ∃ x ∈ fs2, x.title = some t := by
    intro t h
    rw [hfs2]
    exact exists_title_if_addF _ _ _ _ h
  have step3 : ∀ t : String, (∃ x ∈ fs2, x.title = some t) → ∃ x ∈ fs3, x.title = some t := by
    intro t h
    rw [hfs3]
    exact exists_title_if_addF _ _ _ _ h
  have step4 : ∀ t : String, (∃ x ∈ fs3, x.title = some t) → ∃ x ∈ fs4, x.title = some t := by
    intro t h
    rw [hfs4]
    exact exists_title_if_addF _ _ _ _ h
  have step5 : ∀ t : String, (∃ x ∈ fs4, x.title = some t) →
      ∃ x ∈ ensureMinimumAU findings text, x.title = some t := by
    intro t h
    rw [hres]
    exact exists_title_if_addF _ _ _ _ h
  refine ⟨?_, ?_, ?_, ?_, ?_⟩
  · intro h5
    have h1 : fs1 = addF findings gapApp5 := by rw [hfs1, if_pos (by simp [h5])]
    have hx : ∃ x ∈ fs1, x.title = some "APP 5 collection notice" := by
      rw [h1]
      exact exists_title_addF _ _ _ rfl (by decide)
    exact step5 _ (step4 _ (step3 _ (step2 _ hx)))
  · intro h11
    have h1 : fs2 = addF fs1 gapApp11 := by
      rw [hfs2, if_pos (by simp [e1_11, h11])]
    have hx : ∃ x ∈ fs2, x.title = some "APP 11 security of personal information" := by
      rw [h1]
      exact exists_title_addF _ _ _ rfl (by decide)
    exact step5 _ (step4 _ (step3 _ hx))
  · intro h12
    have h1 : fs3 = addF fs2 gapApp12 := by
      rw [hfs3, if_pos (by simp [e2_12, e1_12, h12])]
    have hx : ∃ x ∈ fs3, x.title = some "APP 12 access to personal information" := by
      rw [h1]
      exact exists_title_addF _ _ _ rfl (by decide)
    exact step5 _ (step4 _ hx)
  · intro h13
    have h1 : fs4 = addF fs3 gapApp13 := by
      rw [hfs4, if_pos (by simp [e3_13, e2_13, e1_13, h13])]
    have hx : ∃ x ∈ fs4, x.title = some "APP 13 correction of personal information" := by
      rw [h1]
      exact exists_title_addF _ _ _ rfl (by decide)
    exact step5 _ hx
  · intro hret
    rw [hres, if_pos (by simp [hret])]
    exact exists_title_addF _ _ _ rfl (by decide)

/-- C7 witness: a finding list matching none of the needles and a text with
no retention keywords; all five mandatory titles appear after gap-fill. -/
theorem ensureMinimumAU_gap_fill_witness :
    (([c7w] : List Finding) ≠ [] ∧
      haveNeedle [c7w] "app 5" = false ∧ haveNeedle [c7w] "app 11" = false ∧
      haveNeedle [c7w] "access to personal" = false ∧
      haveNeedle [c7w] "correction" = false ∧ retentionRegexAU (cs "hello") = false) ∧
    (∃ f ∈ ensureMinimumAU [c7w] (cs "hello"), f.title = some "APP 5 collection notice") ∧
    (∃ f ∈ ensureMinimumAU [c7w] (cs "hello"),
      f.title = some "APP 11 security of personal information") ∧
    (∃ f ∈ ensureMinimumAU [c7w] (cs "hello"),
      f.title = some "APP 12 access to personal information") ∧
    (∃ f ∈ ensureMinimumAU [c7w] (cs "hello"),
      f.title = some "APP 13 correction of personal information") ∧
    (∃ f ∈ ensureMinimumAU [c7w] (cs "hello"), f.title = some "Retention & deletion") := by
  refine ⟨⟨by decide, by decide, by decide, by decide, by decide, by decide⟩, ?_, ?_, ?_, ?_, ?_⟩
  · exact (ensureMinimumAU_gap_fill [c7w] (cs "hello") (by decide)).1 (by decide)
  · exact (ensureMinimumAU_gap_fill [c7w] (cs "hello") (by decide)).2.1 (by decide)
  · exact (ensureMinimumAU_gap_fill [c7w] (cs "hello") (by decide)).2.2.1 (by decide)
  · exact (ensureMinimumAU_gap_fill [c7w] (cs "hello") (by decide)).2.2.2.1 (by decide)
  · exact (ensureMinimumAU_gap_fill [c7w] (cs "hello") (by decide)).2.2.2.2 (by decide)
